import Mathlib

/-!
Verification of the SinoJTAG firmware engine.

This development shallowly embeds the wire-level behaviour of the
SinoWealth JTAG/ICP programmer: the SimpleJTAG PHY bit-banging layer
(SimpleJTAG/phy.h), the TAP controller with its BFS state navigation
(SimpleJTAG/tap.h and its implementation), the SinoWealth PHY mode
manager (sinowealth/phy.cpp), the SinoWealth TAP layer
(sinowealth/tap.cpp), and the ICP byte-serial protocol (the ICP
implementation file).

Wire activity is modelled as a trace of TCK pulses; each pulse records
the TMS and TDI line levels driven while the pulse occurs.  TDO input
is an oracle function from sample index to bit; every shifted bit
consumes one sample, exactly as stream_bits samples TDO once per bit.
Microsecond delays and the raw pin toggles of the vendor magic
sequence are not TCK pulses; the magic sequence is abstracted to a
counter of how many times it has been emitted, which is the only
observable the claims about it need.
-/

/-- One TCK pulse, recording the TMS and TDI levels driven during it. -/
structure ClockEvent where
  tms : Bool
  tdi : Bool
deriving DecidableEq

/-- SinoWealth wire mode, with the uint8 values of sinowealth/phy.h. -/
inductive Mode where
  | READY
  | JTAG
  | ICP
  | NOT_INITIALIZED
deriving DecidableEq

/-- The uint8 enumerator value of a Mode (READY = 0x00, JTAG = 0xA5,
ICP = 0x69, NOT_INITIALIZED = 0xFF); this value is what Phy::mode
casts to a byte and streams. -/
def modeVal : Mode → Nat
  | Mode.READY => 0x00
  | Mode.JTAG => 0xA5
  | Mode.ICP => 0x69
  | Mode.NOT_INITIALIZED => 0xFF

/-- State of the PHY: current line levels, the accumulated pulse
trace, the TDO sample cursor, the SinoWealth mode variable and the
count of magic-sequence emissions. -/
structure PhyState where
  mode : Mode
  tmsLevel : Bool
  tdiLevel : Bool
  tckLevel : Bool
  trace : List ClockEvent
  pos : Nat
  magics : Nat
deriving DecidableEq

/-- Power-on state: mode NOT_INITIALIZED, all lines low, nothing emitted. -/
def phy0 : PhyState :=
  { mode := Mode.NOT_INITIALIZED, tmsLevel := false, tdiLevel := false,
    tckLevel := false, trace := [], pos := 0, magics := 0 }

/-- The all-zero TDO oracle, used to close theorems on concrete runs. -/
def oracle0 : Nat → Bool := fun _ => false

/-- detail::bit_reverse_8 of sinowealth/tap.h (identical to the
anonymous-namespace bit_reverse in the ICP implementation); the
argument is a uint8_t, modelled by reducing mod 256 first. -/
def reverse8 (v0 : Nat) : Nat :=
  let v := v0 % 256
  let v := ((v >>> 4) &&& 0x0F) ||| ((v <<< 4) &&& 0xF0)
  let v := ((v >>> 2) &&& 0x33) ||| ((v <<< 2) &&& 0xCC)
  ((v >>> 1) &&& 0x55) ||| ((v <<< 1) &&& 0xAA)

/-- detail::bit_reverse_16 of sinowealth/tap.h (uint16_t argument). -/
def reverse16 (v0 : Nat) : Nat :=
  let v := v0 % 65536
  let v := ((v >>> 8) &&& 0x00FF) ||| ((v <<< 8) &&& 0xFF00)
  let v := ((v >>> 4) &&& 0x0F0F) ||| ((v <<< 4) &&& 0xF0F0)
  let v := ((v >>> 2) &&& 0x3333) ||| ((v <<< 2) &&& 0xCCCC)
  ((v >>> 1) &&& 0x5555) ||| ((v <<< 1) &&& 0xAAAA)

/-- SimpleJTAG::Phy::next_state: drive TMS to the requested level and
pulse TCK low/high/low.  One pulse is appended to the trace; TDI is
left at its previous level; no TDO sample is taken. -/
def phyNextState (tms : Bool) (p : PhyState) : PhyState :=
  { p with tmsLevel := tms, tckLevel := false,
           trace := p.trace ++ [ClockEvent.mk tms p.tdiLevel] }

/-- Loop body of SimpleJTAG::Phy::stream_bits.  The first Nat is the
count of bits still to shift; the second is the bit index i reached so
far; then the remaining output word (shifted right as the loop runs)
and the capture accumulated so far.  On each bit: TMS is exit on the
last bit only, TDI is the low bit of the remaining word, one pulse is
recorded and one TDO sample is captured into bit i. -/
def streamGo (oracle : Nat → Bool) (exit : Bool) :
    Nat → Nat → Nat → Nat → PhyState → PhyState × Nat
  | 0, _, _, cap, p => (p, cap)
  | k + 1, i, out, cap, p =>
    let tmsb := exit && (k == 0)
    let tdib := out % 2 == 1
    let cap2 := if oracle p.pos then cap + 2 ^ i else cap
    let p2 : PhyState :=
      { p with tmsLevel := tmsb, tdiLevel := tdib, tckLevel := false,
               trace := p.trace ++ [ClockEvent.mk tmsb tdib],
               pos := p.pos + 1 }
    streamGo oracle exit k (i + 1) (out / 2) cap2 p2

/-- SimpleJTAG::Phy::stream_bits: shift n bits of out LSB-first,
asserting TMS on the last bit iff exit; returns the new PHY state and
the capture built from the TDO samples. -/
def streamBits (oracle : Nat → Bool) (n : Nat) (exit : Bool) (out : Nat)
    (p : PhyState) : PhyState × Nat :=
  streamGo oracle exit n 0 out 0 p

/-- The pulse trace produced by streaming n bits of out LSB-first with
exit = false: bit i of out goes out with TMS low. -/
def eventsOfStream : Nat → Nat → List ClockEvent
  | 0, _ => []
  | k + 1, out => ClockEvent.mk false (out % 2 == 1) :: eventsOfStream k (out / 2)

/-- The TDI line level left behind after streaming k+1 bits of out:
the last bit shifted, i.e. bit k of out. -/
def streamLastTdi : Nat → Nat → Bool
  | 0, out => out % 2 == 1
  | k + 1, out => streamLastTdi k (out / 2)

/-- sinowealth::Phy::init (phy.cpp).  If the mode is not
NOT_INITIALIZED it returns with no effect.  Otherwise it performs the
GPIO setup, optionally waits for VREF (LED signalling only, not
modelled), emits the vendor magic sequence (counted in magics; its
raw pin toggles are not TCK pulses) and leaves TCK and TDI high and
TMS low with mode READY. -/
def phyInit (waitVref : Bool) (p : PhyState) : PhyState :=
  if p.mode ≠ Mode.NOT_INITIALIZED then p
  else
    { p with mode := Mode.READY, magics := p.magics + 1,
             tckLevel := true, tmsLevel := false, tdiLevel := true }

/-- A run of n Phy::next_state(true) pulses (a TMS-high clock burst). -/
def phyTmsClocks : Nat → PhyState → PhyState
  | 0, p => p
  | k + 1, p => phyTmsClocks k (phyNextState true p)

/-- sinowealth::Phy::reset (phy.cpp).  From JTAG: 35 TMS-high clocks,
then TCK high and TMS low, mode READY.  From ICP: TCK high and a TMS
pulse (high then low, no TCK pulse), mode READY.  Otherwise no
effect.  Returns the resulting mode. -/
def phyReset (p : PhyState) : PhyState × Mode :=
  match p.mode with
  | Mode.JTAG =>
    let p2 := phyTmsClocks 35 p
    let p3 := { p2 with tckLevel := true, tmsLevel := false, mode := Mode.READY }
    (p3, Mode.READY)
  | Mode.ICP =>
    let p2 := { p with tckLevel := true, tmsLevel := false, mode := Mode.READY }
    (p2, Mode.READY)
  | _ => (p, p.mode)

/-- sinowealth::Phy::mode(Mode) (phy.cpp).  Returns immediately when
the requested mode equals the current one or the PHY is not
initialized; otherwise resets to READY if needed, then streams the
10-bit packet whose low byte is the raw mode enumerator value,
LSB-first with exit = false, and records the new mode. -/
def phyMode (oracle : Nat → Bool) (m : Mode) (p : PhyState) : PhyState × Mode :=
  if p.mode = m ∨ p.mode = Mode.NOT_INITIALIZED then (p, p.mode)
  else
    let p2 := if p.mode ≠ Mode.READY then (phyReset p).1 else p
    let p3 := (streamBits oracle 10 false (modeVal m) p2).1
    let p4 := { p3 with mode := m }
    (p4, m)

/-- The PHY state right after a successful first init from power-on. -/
def phyReadyState : PhyState := phyInit false phy0

/-- SimpleJTAG::Tap::next_state (tap.h): the transition switch of the
16-state TAP FSM.  States carry the numbering of the State enum
(TestLogicReset = 0 .. UpdateIR = 15); the default branch returns
TestLogicReset exactly as the C++ switch does. -/
def next_state (s : Nat) (tms : Bool) : Nat :=
  match s, tms with
  | 0, true => 0 | 0, false => 1
  | 1, true => 2 | 1, false => 1
  | 2, true => 9 | 2, false => 3
  | 3, true => 5 | 3, false => 4
  | 4, true => 5 | 4, false => 4
  | 5, true => 8 | 5, false => 6
  | 6, true => 7 | 6, false => 6
  | 7, true => 8 | 7, false => 4
  | 8, true => 2 | 8, false => 1
  | 9, true => 0 | 9, false => 10
  | 10, true => 12 | 10, false => 11
  | 11, true => 12 | 11, false => 11
  | 12, true => 15 | 12, false => 13
  | 13, true => 14 | 13, false => 13
  | 14, true => 15 | 14, false => 11
  | 15, true => 2 | 15, false => 1
  | _, _ => 0

/-- Run a TMS bit sequence through next_state from a start state. -/
def runTMS (s : Nat) : List Bool → Nat
  | [] => s
  | b :: rest => runTMS (next_state s b) rest

/-- Working state of the breadth-first search inside
SimpleJTAG::Tap::goto_state: the pending queue and the visited, prev
and prev_tms arrays (16 entries each, indexed by state number). -/
structure Bfs where
  queue : List Nat
  visited : List Bool
  prev : List Nat
  prevTms : List Nat
deriving DecidableEq

/-- One edge expansion of the BFS: from state s via tms (0 or 1),
record the successor if not yet visited, exactly as the inner for
loop of goto_state does. -/
def bfsVisit (s : Nat) (tms : Nat) (b : Bfs) : Bfs :=
  let ns := next_state s (tms != 0)
  if b.visited.getD ns false then b
  else
    { queue := b.queue ++ [ns], visited := b.visited.set ns true,
      prev := b.prev.set ns s, prevTms := b.prevTms.set ns tms }

/-- The while loop of goto_state: dequeue and expand until the goal is
visited or the queue empties.  Fuel bounds the iteration count; at
most 16 states are ever enqueued, so fuel 32 is never exhausted. -/
def bfsLoop : Nat → Nat → Bfs → Bfs
  | 0, _, b => b
  | fuel + 1, goal, b =>
    if b.visited.getD goal false then b
    else
      match b.queue with
      | [] => b
      | s :: rest =>
        bfsLoop fuel goal (bfsVisit s 1 (bfsVisit s 0 { b with queue := rest }))

/-- The path reconstruction of goto_state, produced directly in
emission order (start towards goal): the C++ code collects prev_tms
values walking goal back to start and then plays them in reverse. -/
def backtrack : Nat → Bfs → Nat → Nat → List Bool
  | 0, _, _, _ => []
  | fuel + 1, b, cur, start =>
    if cur = start then []
    else backtrack fuel b (b.prev.getD cur 0) start ++ [b.prevTms.getD cur 0 != 0]

/-- The TMS sequence SimpleJTAG::Tap::goto_state emits to move from
start to goal: empty when already there, otherwise the BFS shortest
path; if the BFS were to fail to reach the goal nothing is emitted
(the early return of the C++ code). -/
def gotoSeq (start goal : Nat) : List Bool :=
  if start = goal then []
  else
    let b0 : Bfs :=
      { queue := [start], visited := (List.replicate 16 false).set start true,
        prev := List.replicate 16 0, prevTms := List.replicate 16 0 }
    let b := bfsLoop 32 goal b0
    if b.visited.getD goal false then backtrack 16 b goal start else []

/-- A TAP controller: the PHY it drives plus the tracked FSM state. -/
structure TapM where
  phy : PhyState
  st : Nat
deriving DecidableEq

/-- SimpleJTAG::Tap::step: one Phy::next_state pulse plus the tracked
state update through next_state. -/
def tapStep (tms : Bool) (t : TapM) : TapM :=
  { phy := phyNextState tms t.phy, st := next_state t.st tms }

/-- SimpleJTAG::Tap::goto_state: emit the computed TMS sequence
through step. -/
def tapGoto (target : Nat) (t : TapM) : TapM :=
  (gotoSeq t.st target).foldl (fun a b => tapStep b a) t

/-- SimpleJTAG::Tap::reset: five Phy::next_state(true) pulses (not
through step), then the tracked state is forced to TestLogicReset. -/
def tapReset (t : TapM) : TapM :=
  { phy := phyNextState true (phyNextState true (phyNextState true
      (phyNextState true (phyNextState true t.phy)))), st := 0 }

/-- SimpleJTAG::Tap::idle_clocks: count steps with TMS low. -/
def tapIdle (count : Nat) (t : TapM) : TapM :=
  (List.range count).foldl (fun a _ => tapStep false a) t

/-- SimpleJTAG::Tap::DR (tap.h template): navigate to ShiftDR (state
4), stream the bits with exit = true, set the tracked state to
Exit1DR (5) and step TMS=1 into UpdateDR.  Returns the capture. -/
def tapDR (oracle : Nat → Bool) (bits : Nat) (out : Nat) (t : TapM) :
    TapM × Nat :=
  let t1 := tapGoto 4 t
  let pr := streamBits oracle bits true out t1.phy
  let t2 : TapM := { phy := pr.1, st := 5 }
  (tapStep true t2, pr.2)

/-- SimpleJTAG::Tap::IR (tap.h template): as DR but through ShiftIR
(11) and Exit1IR (12) with the fixed IR width of 4 bits
(config::IR_BITS for the SinoWealth target). -/
def tapIR (oracle : Nat → Bool) (out : Nat) (t : TapM) : TapM × Nat :=
  let t1 := tapGoto 11 t
  let pr := streamBits oracle 4 true out t1.phy
  let t2 : TapM := { phy := pr.1, st := 12 }
  (tapStep true t2, pr.2)

/-- Modelled from the spec: the IEEE 1149.1 state table, written as
the standard successor tables for TMS=0 and TMS=1 over the state
numbering of the data model (TestLogicReset = 0 .. UpdateIR = 15).
This is the reference against which the next_state of the code is compared. -/
def ieee_next (s : Fin 16) (tms : Bool) : Nat :=
  if tms then [0, 2, 9, 5, 5, 8, 7, 8, 2, 0, 12, 12, 15, 14, 15, 2].getD s.val 0
  else [1, 1, 3, 4, 4, 6, 6, 4, 1, 10, 11, 11, 13, 13, 11, 1].getD s.val 0

/-- sinowealth::Status (sinowealth/tap.h): OK = 0, ERR_IDCODE = 1,
ERR_FLASH_TIMEOUT = 2. -/
inductive Status where
  | OK
  | ERR_IDCODE
  | ERR_FLASH_TIMEOUT
deriving DecidableEq

/-- The uint8 value of a Status. -/
def Status.toNat : Status → Nat
  | Status.OK => 0
  | Status.ERR_IDCODE => 1
  | Status.ERR_FLASH_TIMEOUT => 2

/-- sinowealth::Tap::config_write (tap.cpp): DR<23> of the ConfigDR
packing (address << 16) | data followed by one idle clock. -/
def configWrite (oracle : Nat → Bool) (addr data : Nat) (t : TapM) : TapM :=
  tapIdle 1 (tapDR oracle 23 ((addr <<< 16) ||| data) t).1

/-- sinowealth::Tap::read_idcode (tap.cpp): IR = IDCODE (0x0E), then
a 16-bit DR read of the identification value. -/
def readIdcode (oracle : Nat → Bool) (t : TapM) : TapM × Nat :=
  tapDR oracle 16 0 (tapIR oracle 0x0E t).1

/-- Steps 1-5 of sinowealth::Tap::init (tap.cpp): navigate to
Run-Test/Idle, enable the debug interface (DEBUG/ENABLE), run the
CONFIG initialization writes (DEBUG_CTRL 0x3000, 0x2000, 0x0000 and
the eight SFR clears), halt the CPU (DEBUG/HALT then IR=HALT) and
inject the MOV 0xFF, #0x80 opcode bytes bit-reversed through DR<8>.
Delays are not modelled. -/
def tapInitPre (oracle : Nat → Bool) (t : TapM) : TapM :=
  let t := tapIdle 2 (tapGoto 1 t)
  let t := (tapIR oracle 0x02 t).1
  let t := tapIdle 1 (tapDR oracle 4 0x04 t).1
  let t := (tapIR oracle 0x03 t).1
  let t := configWrite oracle 0x40 0x3000 t
  let t := configWrite oracle 0x40 0x2000 t
  let t := configWrite oracle 0x40 0x0000 t
  let t := [0x63, 0x67, 0x6B, 0x6F, 0x73, 0x77, 0x7B, 0x7F].foldl
    (fun s a => configWrite oracle a 0x0000 s) t
  let t := (tapIR oracle 0x02 t).1
  let t := tapIdle 1 (tapDR oracle 4 0x01 t).1
  let t := (tapIR oracle 0x0C t).1
  let t := (tapDR oracle 8 (reverse8 0x75) t).1
  let t := (tapDR oracle 8 (reverse8 0xFF) t).1
  (tapDR oracle 8 (reverse8 0x80) t).1

/-- sinowealth::Tap::init (tap.cpp): the unlock sequence, then the
IDCODE verification.  The returned triple carries the final TAP, the
16-bit id the final step read (the local variable id of the C++
code, exposed so the status test can be stated) and the Status. -/
def tapInitRun (oracle : Nat → Bool) (t : TapM) : TapM × Nat × Status :=
  let r := readIdcode oracle (tapInitPre oracle t)
  (r.1, r.2,
    if r.2 = 0x0000 ∨ r.2 = 0xFFFF then Status.ERR_IDCODE else Status.OK)

/-- The CODESCAN DR packing shared by CodescanDR::operator uint32_t
and Tap::CODESCAN::operator()(fields_t) in tap.cpp: bit-reversed
16-bit address in [15:0], bit-reversed control shifted down to 6 bits
in [21:16], bit-reversed data in [29:22]. -/
def codescanPack (address ctrl data : Nat) : Nat :=
  reverse16 address ||| ((reverse8 ctrl >>> 2) <<< 16) |||
    (reverse8 data <<< 22)

/-- sinowealth::Tap::codescan_read (tap.cpp): IR = CODESCAN (0x00),
shift the 30-bit DR word for the requested address with READ control
(0x04), and return the bit-reversed data field [29:22] of the
capture.  The C++ function issues no idle clocks. -/
def codescanRead (oracle : Nat → Bool) (address : Nat) (t : TapM) :
    TapM × Nat :=
  let t1 := (tapIR oracle 0x00 t).1
  let pr := tapDR oracle 30 (codescanPack address 0x04 0x00) t1
  (pr.1, reverse8 ((pr.2 >>> 22) &&& 0xFF))

/-- The full pulse trace of a codescan_read of address 0x0000 started
in Run-Test/Idle on a freshly initialized PHY with an all-zero TDO
oracle. -/
def codescanTrace0 : List ClockEvent :=
  ((codescanRead oracle0 0x0000 (TapM.mk phyReadyState 1)).1).phy.trace

/-- sinowealth::ICP::send_byte: bit-reverse the byte, stream 8 bits
LSB-first with exit = false, then one extra TMS-low clock.  The
stream samples (and discards) 8 TDO bits, so the cursor advances. -/
def sendByte (oracle : Nat → Bool) (b : Nat) (p : PhyState) : PhyState :=
  phyNextState false (streamBits oracle 8 false (reverse8 b) p).1

/-- sinowealth::ICP::set_address: SET_IB_OFFSET_L (0x40), low address
byte, SET_IB_OFFSET_H (0x41), high address byte. -/
def setAddress (oracle : Nat → Bool) (address : Nat) (p : PhyState) :
    PhyState :=
  sendByte oracle ((address >>> 8) &&& 0xFF)
    (sendByte oracle 0x41
      (sendByte oracle (address &&& 0xFF)
        (sendByte oracle 0x40 p)))

/-- The remaining-data loop of ICP::write_flash: each byte after the
first is sent, a 5 microsecond delay (not modelled) passes, and a
0x00 pad byte is sent. -/
def writeLoop (oracle : Nat → Bool) : List Nat → PhyState → PhyState
  | [], p => p
  | b :: rest, p => writeLoop oracle rest (sendByte oracle 0x00 (sendByte oracle b p))

/-- sinowealth::ICP::write_flash: empty buffers are rejected with
false and no effect.  Otherwise: set_address, SET_IB_DATA (0x42) and
the first byte, WRITE_UNLOCK (0x6E) and the PREAMBLE
[0x15, 0x0A, 0x09, 0x06], the remaining bytes each followed by a 0x00
pad, and the WRITE_TERM [0x00, 0xAA, 0x00, 0x00]; returns true. -/
def writeFlash (oracle : Nat → Bool) (address : Nat) (buffer : List Nat)
    (p : PhyState) : PhyState × Bool :=
  match buffer with
  | [] => (p, false)
  | b0 :: rest =>
    let p := setAddress oracle address p
    let p := sendByte oracle b0 (sendByte oracle 0x42 p)
    let p := [0x15, 0x0A, 0x09, 0x06].foldl (fun q c => sendByte oracle c q)
      (sendByte oracle 0x6E p)
    let p := writeLoop oracle rest p
    let p := [0x00, 0xAA, 0x00, 0x00].foldl (fun q c => sendByte oracle c q) p
    (p, true)

/-- The pulse trace send_byte appends for a byte b: the 8 bits of
reverse8 b LSB-first with TMS low, then the extra clock with TDI
still at the last shifted bit. -/
def sendByteEvents (b : Nat) : List ClockEvent :=
  eventsOfStream 8 (reverse8 b) ++
    [ClockEvent.mk false (streamLastTdi 7 (reverse8 b))]

/-- The pulse trace of a whole ICP byte sequence. -/
def wireOfBytes (bs : List Nat) : List ClockEvent :=
  bs.foldr (fun b acc => sendByteEvents b ++ acc) []

/-- Modelled from the spec: send_mode_byte(b) as section 4.1 describes
it — bit-reverse b, stream 8 bits LSB-first with exit = false, then
two additional TMS=0 clocks (which leave the TDI line at the last
shifted bit).  The live code has no such function; this definition
exists to compare the mode-byte encoding of the spec with Phy::mode. -/
def specModeByteEvents (b : Nat) : List ClockEvent :=
  eventsOfStream 8 (reverse8 b) ++
    [ClockEvent.mk false (streamLastTdi 7 (reverse8 b)),
     ClockEvent.mk false (streamLastTdi 7 (reverse8 b))]

/-- The operations of the mode manager surface that return to or
between Ready, Jtag and Icp: Phy::init, Phy::reset and the three
productive-mode transitions through Phy::mode. -/
inductive Op where
  | opInit (waitVref : Bool)
  | opReset
  | opModeReady
  | opModeJtag
  | opModeIcp
deriving DecidableEq

/-- Interpret one mode-manager operation on the PHY. -/
def runOp (oracle : Nat → Bool) (p : PhyState) : Op → PhyState
  | Op.opInit b => phyInit b p
  | Op.opReset => (phyReset p).1
  | Op.opModeReady => (phyMode oracle Mode.READY p).1
  | Op.opModeJtag => (phyMode oracle Mode.JTAG p).1
  | Op.opModeIcp => (phyMode oracle Mode.ICP p).1

/-- Run a sequence of mode-manager operations. -/
def runOps (oracle : Nat → Bool) (ops : List Op) (p : PhyState) : PhyState :=
  ops.foldl (runOp oracle) p

/-- The magic-sequence invariant: at most one emission ever, and none
before the first init. -/
def MagicInv (p : PhyState) : Prop :=
  p.magics ≤ 1 ∧ (p.mode = Mode.NOT_INITIALIZED → p.magics = 0)

theorem streamGo_trace (oracle : Nat → Bool) :
    ∀ (k i out cap : Nat) (p : PhyState),
    ((streamGo oracle false k i out cap p).1).trace = p.trace ++ eventsOfStream k out := by
  intro k
  induction k with
  | zero => intro i out cap p; simp [streamGo, eventsOfStream]
  | succ k ih =>
    intro i out cap p
    simp only [streamGo, eventsOfStream]
    rw [ih]
    simp [List.append_assoc]

theorem streamGo_tdi (oracle : Nat → Bool) :
    ∀ (k i out cap : Nat) (p : PhyState),
    ((streamGo oracle false (k + 1) i out cap p).1).tdiLevel = streamLastTdi k out := by
  intro k
  induction k with
  | zero => intro i out cap p; simp [streamGo, streamLastTdi]
  | succ k ih =>
    intro i out cap p
    rw [show streamGo oracle false (k + 1 + 1) i out cap p
        = streamGo oracle false (k + 1) (i + 1) (out / 2)
            (if oracle p.pos then cap + 2 ^ i else cap)
            { p with tmsLevel := false && (k + 1 == 0), tdiLevel := out % 2 == 1,
                     tckLevel := false,
                     trace := p.trace ++ [ClockEvent.mk (false && (k + 1 == 0)) (out % 2 == 1)],
                     pos := p.pos + 1 } from rfl]
    rw [ih]
    simp [streamLastTdi]

theorem streamGo_mode_magics (oracle : Nat → Bool) (exit : Bool) :
    ∀ (k i out cap : Nat) (p : PhyState),
    ((streamGo oracle exit k i out cap p).1).mode = p.mode
    ∧ ((streamGo oracle exit k i out cap p).1).magics = p.magics := by
  intro k
  induction k with
  | zero => intro i out cap p; simp [streamGo]
  | succ k ih =>
    intro i out cap p
    simp only [streamGo]
    exact ih (i + 1) (out / 2) _ _

theorem phyTmsClocks_mode_magics :
    ∀ (n : Nat) (p : PhyState),
    (phyTmsClocks n p).mode = p.mode ∧ (phyTmsClocks n p).magics = p.magics := by
  intro n
  induction n with
  | zero => intro p; exact ⟨rfl, rfl⟩
  | succ k ih =>
    intro p
    simp only [phyTmsClocks]
    exact ih (phyNextState true p)

theorem sendByte_trace (oracle : Nat → Bool) (b : Nat) (p : PhyState) :
    (sendByte oracle b p).trace = p.trace ++ sendByteEvents b := by
  show (phyNextState false (streamGo oracle false 8 0 (reverse8 b) 0 p).1).trace
    = p.trace ++ sendByteEvents b
  rw [phyNextState]
  rw [streamGo_trace oracle 8 0 (reverse8 b) 0 p]
  rw [show (8 : Nat) = 7 + 1 from rfl, streamGo_tdi oracle 7 0 (reverse8 b) 0 p]
  simp [sendByteEvents, List.append_assoc]

theorem foldlStep_st (seq : List Bool) :
    ∀ t : TapM, ((seq.foldl (fun a b => tapStep b a) t)).st = runTMS t.st seq := by
  induction seq with
  | nil => intro t; simp [runTMS]
  | cons b rest ih =>
    intro t
    simp only [List.foldl_cons, runTMS]
    exact ih (tapStep b t)

theorem foldlStep_trace (seq : List Bool) :
    ∀ t : TapM, ((seq.foldl (fun a b => tapStep b a) t)).phy.trace
      = t.phy.trace ++ seq.map (fun b => ClockEvent.mk b t.phy.tdiLevel) := by
  induction seq with
  | nil => intro t; simp
  | cons b rest ih =>
    intro t
    simp only [List.foldl_cons, List.map_cons]
    rw [ih (tapStep b t)]
    simp [tapStep, phyNextState, List.append_assoc]

theorem next_state_lt : ∀ (f : Fin 16) (b : Bool), next_state f.val b < 16 := by decide

theorem gotoSeq_self (s : Nat) : gotoSeq s s = [] := by
  simp [gotoSeq]

set_option maxHeartbeats 1000000 in
theorem goto_reaches : ∀ f t : Fin 16, runTMS f.val (gotoSeq f.val t.val) = t.val := by decide

set_option maxHeartbeats 1000000 in
theorem dist_key : ∀ (f t : Fin 16) (b : Bool), f.val ≠ t.val →
    (gotoSeq f.val t.val).length ≤ (gotoSeq (next_state f.val b) t.val).length + 1 := by decide

theorem dist_le :
    ∀ (seq : List Bool) (f t : Fin 16), runTMS f.val seq = t.val →
    (gotoSeq f.val t.val).length ≤ seq.length := by
  intro seq
  induction seq with
  | nil =>
    intro f t h
    simp only [runTMS] at h
    rw [h, gotoSeq_self]
  | cons b rest ih =>
    intro f t h
    by_cases hft : f.val = t.val
    · rw [hft, gotoSeq_self]
      simp
    · have hnext : runTMS (next_state f.val b) rest = t.val := h
      have ihh := ih ⟨next_state f.val b, next_state_lt f b⟩ t hnext
      have hk := dist_key f t b hft
      simp only [List.length_cons]
      exact le_trans hk (Nat.add_le_add_right ihh 1)

theorem phyReset_magics (p : PhyState) : ((phyReset p).1).magics = p.magics := by
  obtain ⟨md, tms, tdi, tck, tr, pos, mg⟩ := p
  cases md
  case READY => rfl
  case NOT_INITIALIZED => rfl
  case ICP => rfl
  case JTAG =>
    simp only [phyReset]
    rw [(phyTmsClocks_mode_magics 35 (PhyState.mk Mode.JTAG tms tdi tck tr pos mg)).2]

theorem magicInv_phyInit (b : Bool) (p : PhyState) (h : MagicInv p) :
    MagicInv (phyInit b p) := by
  rw [phyInit]
  split
  · exact h
  · next hm =>
    have hm2 : p.mode = Mode.NOT_INITIALIZED := by
      by_contra hc
      exact hm hc
    have h0 := h.2 hm2
    refine ⟨?_, ?_⟩
    · show p.magics + 1 ≤ 1
      omega
    · intro hc
      exact Mode.noConfusion hc

theorem magicInv_phyReset (p : PhyState) (h : MagicInv p) :
    MagicInv (phyReset p).1 := by
  obtain ⟨md, tms, tdi, tck, tr, pos, mg⟩ := p
  cases md
  case READY => exact h
  case NOT_INITIALIZED => exact h
  case ICP => exact ⟨h.1, fun hc => Mode.noConfusion hc⟩
  case JTAG =>
    refine ⟨?_, ?_⟩
    · simp only [phyReset]
      rw [(phyTmsClocks_mode_magics 35 (PhyState.mk Mode.JTAG tms tdi tck tr pos mg)).2]
      exact h.1
    · intro hc
      exact Mode.noConfusion hc

theorem magicInv_phyMode (oracle : Nat → Bool) (m : Mode) (p : PhyState)
    (h : MagicInv p) (hm : m ≠ Mode.NOT_INITIALIZED) :
    MagicInv ((phyMode oracle m p).1) := by
  rw [phyMode]
  split
  · exact h
  · have hqm : (if p.mode ≠ Mode.READY then (phyReset p).1 else p).magics ≤ 1 := by
      split
      · rw [phyReset_magics]
        exact h.1
      · exact h.1
    simp only [streamBits]
    refine ⟨?_, ?_⟩
    · rw [(streamGo_mode_magics oracle false 10 0 (modeVal m) 0
        (if p.mode ≠ Mode.READY then (phyReset p).1 else p)).2]
      exact hqm
    · intro hc
      exact absurd hc hm

theorem magicInv_runOp (oracle : Nat → Bool) (p : PhyState) (op : Op)
    (h : MagicInv p) : MagicInv (runOp oracle p op) := by
  cases op
  case opInit b => exact magicInv_phyInit b p h
  case opReset => exact magicInv_phyReset p h
  case opModeReady => exact magicInv_phyMode oracle Mode.READY p h (by decide)
  case opModeJtag => exact magicInv_phyMode oracle Mode.JTAG p h (by decide)
  case opModeIcp => exact magicInv_phyMode oracle Mode.ICP p h (by decide)

theorem magicInv_runOps (oracle : Nat → Bool) :
    ∀ (ops : List Op) (p : PhyState), MagicInv p →
    MagicInv (runOps oracle ops p) := by
  intro ops
  induction ops with
  | nil => intro p h; exact h
  | cons op rest ih =>
    intro p h
    exact ih (runOp oracle p op) (magicInv_runOp oracle p op h)

/-- C1 counterexample: the claim says the mode byte is bit-reversed
before the LSB-first shift.  On the transition Ready to Icp the code
(Phy::mode) streams 0x69 LSB-first with no bit-reversal, so already
the first eight data pulses differ from the bit-reversed encoding the
send_mode_byte of the spec describes (0x69 is not a bit-reversal
palindrome). -/
theorem C1_mode_byte_not_bit_reversed_counterexample :
    ((phyMode oracle0 Mode.ICP phyReadyState).1).trace.take 8
      ≠ (specModeByteEvents 0x69).take 8 := by decide

/-- C1 amended: out of Ready into Jtag or Icp, Phy::mode streams the
mode byte as one 10-bit LSB-first shift of the raw constant (0xA5 or
0x69) with exit never asserted: the eight bits of the byte go out LSB-first
with no bit-reversal, followed by two TMS=0 zero-bit clocks.  For Jtag
the eight data bits coincide with the claimed bit-reversed encoding
because reverse8 0xA5 = 0xA5; for Icp they do not. -/
theorem C1_mode_byte_streamed_lsb_first (oracle : Nat → Bool) (p : PhyState)
    (h : p.mode = Mode.READY) :
    ((phyMode oracle Mode.JTAG p).1).trace = p.trace ++ eventsOfStream 10 0xA5
    ∧ ((phyMode oracle Mode.ICP p).1).trace = p.trace ++ eventsOfStream 10 0x69
    ∧ (eventsOfStream 10 0xA5).take 8 = eventsOfStream 8 (reverse8 0xA5)
    ∧ (eventsOfStream 10 0xA5).drop 8
        = [ClockEvent.mk false false, ClockEvent.mk false false]
    ∧ (eventsOfStream 10 0x69).drop 8
        = [ClockEvent.mk false false, ClockEvent.mk false false]
    ∧ (eventsOfStream 10 0x69).take 8 ≠ eventsOfStream 8 (reverse8 0x69) := by
  have hc1 : ¬(p.mode = Mode.JTAG ∨ p.mode = Mode.NOT_INITIALIZED) := by
    rw [h]; decide
  have hc1b : ¬(p.mode = Mode.ICP ∨ p.mode = Mode.NOT_INITIALIZED) := by
    rw [h]; decide
  have hc2 : ¬(p.mode ≠ Mode.READY) := by rw [h]; decide
  refine ⟨?_, ?_, by decide, by decide, by decide, by decide⟩
  · rw [phyMode, if_neg hc1, if_neg hc2]
    simp only [streamBits]
    rw [streamGo_trace oracle 10 0 (modeVal Mode.JTAG) 0 p]
    rfl
  · rw [phyMode, if_neg hc1b, if_neg hc2]
    simp only [streamBits]
    rw [streamGo_trace oracle 10 0 (modeVal Mode.ICP) 0 p]
    rfl

/-- C1 witness: the amended theorem applied to the freshly initialized
PHY in Ready mode. -/
theorem C1_mode_byte_streamed_lsb_first_witness :
    ((phyMode oracle0 Mode.JTAG phyReadyState).1).trace
      = phyReadyState.trace ++ eventsOfStream 10 0xA5 :=
  (C1_mode_byte_streamed_lsb_first oracle0 phyReadyState (by decide)).1

/-- C2 counterexample: the packed 30-bit CODESCAN word for address
0x1234 with READ control is 0x00082C48, not the claimed 0x00202C48
(the claim drops the two-bit right shift of the reversed control). -/
theorem C2_codescan_encoding_counterexample :
    codescanPack 0x1234 0x04 0x00 = 0x00082C48
    ∧ codescanPack 0x1234 0x04 0x00 ≠ 0x00202C48 := by decide

/-- C2 amended: a CODESCAN flash read of address 0x1234 with READ
control packs reverse16 0x1234 = 0x2C48 into bits [15:0] and
reverse8 0x04 shifted right two places, 0b001000 = 0x08, into bits
[21:16], with zero data in [29:22]; the packed value is
reverse16 0x1234 bitor ((reverse8 0x04 shifted right 2) shifted left
16) = 0x00082C48. -/
theorem C2_codescan_encoding_amended :
    codescanPack 0x1234 0x04 0x00
      = (reverse16 0x1234 ||| ((reverse8 0x04 >>> 2) <<< 16))
    ∧ codescanPack 0x1234 0x04 0x00 = 0x00082C48
    ∧ codescanPack 0x1234 0x04 0x00 &&& 0xFFFF = reverse16 0x1234
    ∧ (codescanPack 0x1234 0x04 0x00 >>> 16) &&& 0x3F = reverse8 0x04 >>> 2
    ∧ (codescanPack 0x1234 0x04 0x00 >>> 22) &&& 0xFF = 0
    ∧ reverse16 0x1234 = 0x2C48
    ∧ reverse8 0x04 >>> 2 = 0x08 := by decide

/-- C3: the claim says codescan_read emits 2 idle clocks after the
30-bit DR scan.  Evaluating codescan_read at address 0x0000 from
Run-Test/Idle shows the 43-pulse trace ends with the exit bit and the
TMS=1 update step: the code emits zero TMS=0 idle clocks after the
scan, while the flash reader and the register map document of the
same repository state that two idle clocks are required. -/
theorem C3_codescan_read_emits_no_idle_clocks :
    codescanTrace0.length = 43
    ∧ codescanTrace0.drop 41
        = [ClockEvent.mk true false, ClockEvent.mk true false]
    ∧ (codescanTrace0.drop 41).map ClockEvent.tms = [true, true] := by decide

/-- C4: Tap::init performs the debug-unlock sequence and returns
ERR_IDCODE exactly when the 16-bit IDCODE it reads in its final step
is 0x0000 or 0xFFFF; every other value yields OK, whose status byte
is 0. -/
theorem C4_tap_init_idcode_check (oracle : Nat → Bool) (t : TapM) :
    ((tapInitRun oracle t).2.2 = Status.ERR_IDCODE
      ↔ ((tapInitRun oracle t).2.1 = 0x0000 ∨ (tapInitRun oracle t).2.1 = 0xFFFF))
    ∧ ((tapInitRun oracle t).2.2 = Status.OK
        ∨ (tapInitRun oracle t).2.2 = Status.ERR_IDCODE)
    ∧ Status.toNat Status.OK = 0 ∧ Status.toNat Status.ERR_IDCODE = 1 := by
  by_cases hid : (readIdcode oracle (tapInitPre oracle t)).2 = 0x0000
      ∨ (readIdcode oracle (tapInitPre oracle t)).2 = 0xFFFF
  · simp [tapInitRun, hid, Status.toNat]
  · simp [tapInitRun, hid, Status.toNat]

/-- C5: write_flash with an empty buffer returns false with no wire
traffic and no state change at all; with any non-empty buffer it
returns true. -/
theorem C5_write_flash_empty_rejected (oracle : Nat → Bool) (a : Nat)
    (p : PhyState) (buf : List Nat) :
    writeFlash oracle a [] p = (p, false)
    ∧ (buf ≠ [] → (writeFlash oracle a buf p).2 = true) := by
  refine ⟨rfl, fun hne => ?_⟩
  cases buf with
  | nil => exact absurd rfl hne
  | cons b0 rest => rfl

/-- C5 witness: a two-byte write returns true. -/
theorem C5_write_flash_empty_rejected_witness :
    (writeFlash oracle0 0x0000 [0x12, 0x34] phy0).2 = true :=
  (C5_write_flash_empty_rejected oracle0 0x0000 phy0 [0x12, 0x34]).2 (by decide)

/-- C6: write_flash(a, [A, B, C]) emits exactly the byte sequence
SET_IB_OFFSET_L, low address byte, SET_IB_OFFSET_H, high address
byte, SET_IB_DATA, A, WRITE_UNLOCK, the preamble 0x15 0x0A 0x09 0x06,
B, 0x00, C, 0x00, and the terminator 0x00 0xAA 0x00 0x00; each byte
goes out MSB-first (bit i of the shift is bit 7-i of the byte) with
one extra trailing TMS=0 clock per byte. -/
theorem C6_write_flash_byte_sequence (oracle : Nat → Bool) (a A B C : Nat)
    (p : PhyState) :
    ((writeFlash oracle a [A, B, C] p).1).trace
      = p.trace ++ wireOfBytes [0x40, a &&& 0xFF, 0x41, (a >>> 8) &&& 0xFF,
          0x42, A, 0x6E, 0x15, 0x0A, 0x09, 0x06, B, 0x00, C,
          0x00, 0x00, 0xAA, 0x00, 0x00]
    ∧ (∀ b : Fin 256, sendByteEvents b.val
        = (List.range 8).map (fun i => ClockEvent.mk false (Nat.testBit b.val (7 - i)))
          ++ [ClockEvent.mk false (Nat.testBit b.val 0)]) := by
  refine ⟨?_, ?_⟩
  · simp only [writeFlash, setAddress, writeLoop, List.foldl_cons, List.foldl_nil]
    simp only [sendByte_trace, wireOfBytes, List.foldr_cons, List.foldr_nil]
    simp [List.append_assoc]
  · set_option maxRecDepth 4096 in decide

/-- C7: goto_state emits, through next_state, a TMS sequence that ends
at the target; no strictly shorter sequence reaches the target; and
when source equals target nothing is emitted. -/
theorem C7_goto_state_shortest_path (f t : Fin 16) (p : PhyState) :
    (tapGoto t.val (TapM.mk p f.val)).st = t.val
    ∧ (tapGoto t.val (TapM.mk p f.val)).phy.trace
        = p.trace ++ (gotoSeq f.val t.val).map (fun b => ClockEvent.mk b p.tdiLevel)
    ∧ runTMS f.val (gotoSeq f.val t.val) = t.val
    ∧ (∀ seq : List Bool, runTMS f.val seq = t.val →
        (gotoSeq f.val t.val).length ≤ seq.length)
    ∧ (f.val = t.val → gotoSeq f.val t.val = []) := by
  refine ⟨?_, ?_, goto_reaches f t, fun seq hs => dist_le seq f t hs,
    fun hft => by rw [hft, gotoSeq_self]⟩
  · rw [tapGoto, foldlStep_st]
    exact goto_reaches f t
  · rw [tapGoto, foldlStep_trace]

/-- C7 witness: from TestLogicReset to ShiftDR the emitted sequence
has minimal length among sequences reaching ShiftDR, checked against
the length-4 sequence 0,1,0,0; and goto_state from CaptureDR to
itself emits nothing. -/
theorem C7_goto_state_shortest_path_witness :
    (gotoSeq 0 4).length ≤ ([false, true, false, false] : List Bool).length
    ∧ gotoSeq 3 3 = [] :=
  ⟨(C7_goto_state_shortest_path 0 4 phy0).2.2.2.1 [false, true, false, false]
      (by decide),
   (C7_goto_state_shortest_path 3 3 phy0).2.2.2.2 rfl⟩

/-- C8: next_state agrees with the IEEE 1149.1 transition table on all
16 states and both TMS values (32 combinations). -/
theorem C8_next_state_matches_ieee_table :
    ∀ (s : Fin 16) (tms : Bool), next_state s.val tms = ieee_next s tms := by
  decide

/-- C9: the magic sequence is emitted at most once across any run of
mode-manager operations from power-on; Phy::init is a no-op whenever
the mode is not NOT_INITIALIZED; and neither Phy::reset nor a
mode transition between Ready, Jtag and Icp ever emits it. -/
theorem C9_magic_sequence_once (oracle : Nat → Bool) (ops : List Op) (b : Bool)
    (p : PhyState) (m : Mode) (hp : p.mode ≠ Mode.NOT_INITIALIZED) :
    (runOps oracle ops phy0).magics ≤ 1
    ∧ phyInit b p = p
    ∧ ((phyReset p).1).magics = p.magics
    ∧ (m = Mode.READY ∨ m = Mode.JTAG ∨ m = Mode.ICP →
        ((phyMode oracle m p).1).magics = p.magics) := by
  refine ⟨?_, ?_, phyReset_magics p, ?_⟩
  · exact (magicInv_runOps oracle ops phy0 ⟨by decide, fun _ => rfl⟩).1
  · rw [phyInit, if_pos hp]
  · intro hm
    rw [phyMode]
    split
    · rfl
    · simp only [streamBits]
      rw [(streamGo_mode_magics oracle false 10 0 (modeVal m) 0
        (if p.mode ≠ Mode.READY then (phyReset p).1 else p)).2]
      split
      · rw [phyReset_magics]
      · rfl

/-- C9 witness: on the freshly initialized PHY (mode Ready), init is a
no-op and a transition to Jtag leaves the magic count unchanged. -/
theorem C9_magic_sequence_once_witness :
    phyInit true phyReadyState = phyReadyState
    ∧ ((phyMode oracle0 Mode.JTAG phyReadyState).1).magics
        = phyReadyState.magics :=
  ⟨(C9_magic_sequence_once oracle0 [] true phyReadyState Mode.JTAG (by decide)).2.1,
   (C9_magic_sequence_once oracle0 [] true phyReadyState Mode.JTAG (by decide)).2.2.2
     (Or.inr (Or.inl rfl))⟩

/-- C10: from every TAP state, five TMS=1 transitions end at
TestLogicReset, so Tap::reset (five TMS-high clocks, tracked state
forced to TestLogicReset) leaves the tracked state consistent with
the FSM from any start. -/
theorem C10_five_tms_ones_reset_consistent (s : Fin 16) (p : PhyState) :
    runTMS s.val (List.replicate 5 true) = 0
    ∧ (tapReset (TapM.mk p s.val)).st = 0
    ∧ (tapReset (TapM.mk p s.val)).st = runTMS s.val (List.replicate 5 true)
    ∧ (tapReset (TapM.mk p s.val)).phy.trace
        = p.trace ++ List.replicate 5 (ClockEvent.mk true p.tdiLevel) := by
  have h5 : ∀ u : Fin 16, runTMS u.val (List.replicate 5 true) = 0 := by decide
  refine ⟨h5 s, by rw [tapReset], by rw [tapReset, h5 s], ?_⟩
  show (phyNextState true (phyNextState true (phyNextState true
    (phyNextState true (phyNextState true p))))).trace
    = p.trace ++ List.replicate 5 (ClockEvent.mk true p.tdiLevel)
  simp [phyNextState, List.replicate]
